import Mathlib

/-!
Verification of the journal persistence and validation pipeline of the
Lyra-Emergence repository (src/src/journal, src/src/publish,
src/src/utils/path_safety.py) against its natural-language specification.

The Python code is shallowly embedded: JSON documents become an inductive
`Json` type, Python dicts become insertion-ordered association lists with
Python dict update semantics, and raised exceptions become `Except` errors
tagged by the exception class.  File IO is factored out: every modelled
operation acts on the decoded JSON document (respectively on an explicit
filesystem model for the path-safety guard), exactly as the corresponding
Python function acts on the value returned by `json.load` (respectively on
the real filesystem).
-/

/-- JSON values as decoded by Python `json.loads`.  Objects keep key order
(CPython dicts preserve insertion order); the journal files relevant here
contain no floating point numbers, so numbers are modelled as integers. -/
inductive Json where
  | null : Json
  | bool (b : Bool) : Json
  | num (n : Int) : Json
  | str (s : String) : Json
  | arr (elems : List Json) : Json
  | obj (fields : List (String × Json)) : Json
deriving Repr

namespace Json

/-- Python `d[k]` / `d.get(k)`: first binding of a key in an object.
CPython dicts hold each key at most once; the embedding keeps that
invariant because objects are only built by `setKey` and by decoded
literals with distinct keys. -/
def lookupKey : List (String × Json) → String → Option Json
  | [], _ => none
  | (k, v) :: rest, key => if k = key then some v else lookupKey rest key

/-- Python `d.get(k, default)`. -/
def getD (fields : List (String × Json)) (key : String) (dflt : Json) : Json :=
  match lookupKey fields key with
  | some v => v
  | none => dflt

/-- Python `k in d`. -/
def hasKey (fields : List (String × Json)) (key : String) : Bool :=
  (lookupKey fields key).isSome

/-- Python `d[k] = v`: update in place when the key exists (keeping its
position), append otherwise. -/
def setKey : List (String × Json) → String → Json → List (String × Json)
  | [], key, v => [(key, v)]
  | (k, w) :: rest, key, v =>
    if k = key then (key, v) :: rest else (k, w) :: setKey rest key v

/-- Python `d.pop(k)` (the removal part): drop the first binding of a key. -/
def eraseKey : List (String × Json) → String → List (String × Json)
  | [], _ => []
  | (k, w) :: rest, key => if k = key then rest else (k, w) :: eraseKey rest key

end Json

/-- Python exceptions raised by the modelled code, tagged by class.  The
journal parser raises `ValueError("Invalid journal file format")` for an
unrecognized envelope; pydantic raises a `ValidationError`; subscripting a
dict with a missing key raises `KeyError`; calling methods on `None` or
applying string operations to non-strings raises `TypeError` or
`AttributeError`; `cryptography.fernet` raises `InvalidToken` on an
authentication failure. -/
inductive PyErr where
  | valueError (msg : String) : PyErr
  | validationError (field : String) (msg : String) : PyErr
  | keyError (key : String) : PyErr
  | typeError (msg : String) : PyErr
  | attributeError (msg : String) : PyErr
  | invalidToken : PyErr
deriving Repr, DecidableEq

/-! ### Python string primitives

`str.replace` replaces non-overlapping occurrences left to right; it is
implemented here on character lists with an explicit fuel argument equal to
the length of the subject string (each step consumes at least one
character, so that fuel always suffices). -/

/-- One pass of Python `str.replace` over a character list.  `fuel` bounds
the recursion; callers pass the length of the subject. -/
def replaceCharsGo (pat rep : List Char) : Nat → List Char → List Char
  | _, [] => []
  | 0, s => s
  | Nat.succ n, c :: rest =>
    if pat ≠ [] ∧ pat.isPrefixOf (c :: rest) then
      rep ++ replaceCharsGo pat rep n (List.drop (pat.length - 1) rest)
    else
      c :: replaceCharsGo pat rep n rest

/-- Python `s.replace(pat, rep)` for a non-empty pattern (all patterns used
by the journal parser are non-empty; an empty pattern is returned
unchanged, a case the source never exercises). -/
def pyReplace (s pat rep : String) : String :=
  String.mk (replaceCharsGo pat.data rep.data s.data.length s.data)

/-- Python truthiness (`bool(v)`) of a decoded JSON value. -/
def pyTruthy : Json → Bool
  | .null => false
  | .bool b => b
  | .num n => n ≠ 0
  | .str s => s ≠ ""
  | .arr elems => !elems.isEmpty
  | .obj fields => !fields.isEmpty

mutual
/-- Python `str(v)` of a decoded JSON value.  Only the scalar cases are
exercised by the modelled code paths (`str(entry.get("id"))` in the
publish toggle); containers are rendered in a repr-like form. -/
def pyStr : Json → String
  | .null => "None"
  | .bool true => "True"
  | .bool false => "False"
  | .num n => toString n
  | .str s => s
  | .arr elems => "[" ++ String.intercalate ", " (pyStrList elems) ++ "]"
  | .obj fields =>
    "\x7b" ++ String.intercalate ", " (pyStrFields fields) ++ "\x7d"

def pyStrList : List Json → List String
  | [] => []
  | v :: rest => pyStr v :: pyStrList rest

def pyStrFields : List (String × Json) → List String
  | [] => []
  | (k, v) :: rest => (k ++ ": " ++ pyStr v) :: pyStrFields rest
end

/-! ### Journal schema (src/src/journal/parser.py, pydantic models)

The models below mirror the pydantic classes defined in
src/src/journal/parser.py, which are the ones used by `parse_journal` and
by the encrypted storage module.  (src/src/journal/models.py declares a
divergent generation of the same schema whose canonical reflections field
is `lyra_reflections` with three accepted aliases; the test suite is
written against that generation.) -/

structure RitualContribution where
  participant : String
  contribution : String
  role : String
deriving Repr, DecidableEq

structure RitualDetails where
  description : String
  participants : List RitualContribution
  ritual_type : String
deriving Repr, DecidableEq

structure StewardshipTrace where
  committed_by : String
  witnessed_by : String
  commitment_type : String
  reason : String
deriving Repr, DecidableEq

/-- The journal entry schema of src/src/journal/parser.py, field for field
and in declaration order.  `metadata` is a free-form string-keyed map. -/
structure JournalEntry where
  id : Option String
  text : Option String
  metadata : List (String × Json)
  publish : Bool
  summary : Option String
  timestamp : String
  label : String
  entry_type : String
  emotional_tone : List String
  description : String
  ritual_details : Option RitualDetails
  key_insights : List String
  emergent_companion_reflections : String
  tags : List String
  stewardship_trace : StewardshipTrace
deriving Repr

/-! ### model_dump

Pydantic `model_dump` renders a model as a dict in field declaration
order, with `None` for absent optional values and nested models rendered
recursively. -/

def dumpContribution (c : RitualContribution) : Json :=
  .obj [("participant", .str c.participant),
        ("contribution", .str c.contribution),
        ("role", .str c.role)]

def dumpRitualDetails (r : RitualDetails) : Json :=
  .obj [("description", .str r.description),
        ("participants", .arr (r.participants.map dumpContribution)),
        ("ritual_type", .str r.ritual_type)]

def dumpTrace (t : StewardshipTrace) : Json :=
  .obj [("committed_by", .str t.committed_by),
        ("witnessed_by", .str t.witnessed_by),
        ("commitment_type", .str t.commitment_type),
        ("reason", .str t.reason)]

def dumpOptStr : Option String → Json
  | none => .null
  | some s => .str s

def dumpEntryFields (e : JournalEntry) : List (String × Json) :=
  [("id", dumpOptStr e.id),
        ("text", dumpOptStr e.text),
        ("metadata", .obj e.metadata),
        ("publish", .bool e.publish),
        ("summary", dumpOptStr e.summary),
        ("timestamp", .str e.timestamp),
        ("label", .str e.label),
        ("entry_type", .str e.entry_type),
        ("emotional_tone", .arr (e.emotional_tone.map Json.str)),
        ("description", .str e.description),
        ("ritual_details",
          match e.ritual_details with
          | none => .null
          | some r => dumpRitualDetails r),
        ("key_insights", .arr (e.key_insights.map Json.str)),
        ("emergent_companion_reflections",
          .str e.emergent_companion_reflections),
        ("tags", .arr (e.tags.map Json.str)),
        ("stewardship_trace", dumpTrace e.stewardship_trace)]

def dumpEntry (e : JournalEntry) : Json :=
  .obj (dumpEntryFields e)

/-- Errors that per-entry normalization and validation can raise
(pydantic `ValidationError`, plus `TypeError`/`AttributeError` from the
dict munging).  Keeping them in a type of their own records that the
per-entry stage can never raise the envelope `ValueError`. -/
inductive EntryErr where
  | validation (field : String) (msg : String) : EntryErr
  | typeErr (msg : String) : EntryErr
  | attrErr (msg : String) : EntryErr
deriving Repr, DecidableEq

/-- The Python exception class each per-entry error corresponds to. -/
def EntryErr.toPy : EntryErr → PyErr
  | .validation field msg => .validationError field msg
  | .typeErr msg => .typeError msg
  | .attrErr msg => .attributeError msg

/-! ### model_validate

Pydantic `model_validate` checks each declared field of the input mapping,
substitutes declared defaults for missing optional fields, raises a
`ValidationError` naming the field when a required field is missing or a
value has the wrong type, and ignores undeclared keys (the default
`extra="ignore"` behaviour).  All inputs reaching validation in the
theorems below are exactly typed, so the lax scalar coercions of pydantic
(which only widen acceptance, for example `int` to `bool`) never fire and
are not modelled. -/

def asStr (field : String) : Json → Except EntryErr String
  | .str s => .ok s
  | _ => .error (.validation field "string expected")

def asOptStr (field : String) : Json → Except EntryErr (Option String)
  | .null => .ok none
  | .str s => .ok (some s)
  | _ => .error (.validation field "string or null expected")

def asBool (field : String) : Json → Except EntryErr Bool
  | .bool b => .ok b
  | _ => .error (.validation field "bool expected")

def asStrList (field : String) : Json → Except EntryErr (List String)
  | .arr elems => go elems
  | _ => .error (.validation field "list of strings expected")
where go : List Json → Except EntryErr (List String)
  | [] => .ok []
  | .str s :: rest => do
    let tail ← go rest
    .ok (s :: tail)
  | _ :: _ => .error (.validation field "list of strings expected")

def requireField (fields : List (String × Json)) (field : String) :
    Except EntryErr Json :=
  match Json.lookupKey fields field with
  | some v => .ok v
  | none => .error (.validation field "field required")

def validateContribution (field : String) : Json → Except EntryErr RitualContribution
  | .obj fields => do
    let participant ← asStr field (← requireField fields "participant")
    let contribution ← asStr field (← requireField fields "contribution")
    let role ← asStr field (← requireField fields "role")
    .ok ⟨participant, contribution, role⟩
  | _ => .error (.validation field "mapping expected")

def validateContributionList (field : String) :
    List Json → Except EntryErr (List RitualContribution)
  | [] => .ok []
  | v :: rest => do
    let c ← validateContribution field v
    let tail ← validateContributionList field rest
    .ok (c :: tail)

/-- Validation of `RitualDetails` as declared in src/src/journal/parser.py:
`description` and `ritual_type` are required, `participants` defaults to
the empty list. -/
def validateRitualDetails : Json → Except EntryErr RitualDetails
  | .obj fields => do
    let description ← asStr "ritual_details.description"
      (← requireField fields "description")
    let participants ←
      match Json.lookupKey fields "participants" with
      | none => Except.ok []
      | some (.arr elems) => validateContributionList "ritual_details.participants" elems
      | some _ => .error (.validation "ritual_details.participants" "list expected")
    let rtype ← asStr "ritual_details.ritual_type"
      (← requireField fields "ritual_type")
    .ok ⟨description, participants, rtype⟩
  | _ => .error (.validation "ritual_details" "mapping expected")

def validateTrace : Json → Except EntryErr StewardshipTrace
  | .obj fields => do
    let committed ← asStr "stewardship_trace.committed_by"
      (← requireField fields "committed_by")
    let witnessed ← asStr "stewardship_trace.witnessed_by"
      (← requireField fields "witnessed_by")
    let ctype ← asStr "stewardship_trace.commitment_type"
      (← requireField fields "commitment_type")
    let reason ← asStr "stewardship_trace.reason"
      (← requireField fields "reason")
    .ok ⟨committed, witnessed, ctype, reason⟩
  | _ => .error (.validation "stewardship_trace" "mapping expected")

/-- Pydantic validation of `JournalEntry` (the parser.py generation). -/
def validateEntry : Json → Except EntryErr JournalEntry
  | .obj fields => do
    let id ←
      match Json.lookupKey fields "id" with
      | none => Except.ok none
      | some v => asOptStr "id" v
    let text ←
      match Json.lookupKey fields "text" with
      | none => Except.ok none
      | some v => asOptStr "text" v
    let metadata ←
      match Json.lookupKey fields "metadata" with
      | none => Except.ok []
      | some (.obj kvs) => Except.ok kvs
      | some _ => .error (.validation "metadata" "mapping expected")
    let publish ←
      match Json.lookupKey fields "publish" with
      | none => Except.ok false
      | some v => asBool "publish" v
    let summary ←
      match Json.lookupKey fields "summary" with
      | none => Except.ok none
      | some v => asOptStr "summary" v
    let timestamp ← asStr "timestamp" (← requireField fields "timestamp")
    let label ←
      match Json.lookupKey fields "label" with
      | none => Except.ok "Journal Entry"
      | some v => asStr "label" v
    let etype ← asStr "entry_type" (← requireField fields "entry_type")
    let tone ← asStrList "emotional_tone" (← requireField fields "emotional_tone")
    let description ← asStr "description" (← requireField fields "description")
    let ritual ←
      match Json.lookupKey fields "ritual_details" with
      | none => Except.ok none
      | some .null => Except.ok none
      | some v => do
        let r ← validateRitualDetails v
        Except.ok (some r)
    let insights ←
      match Json.lookupKey fields "key_insights" with
      | none => Except.ok []
      | some v => asStrList "key_insights" v
    let reflections ← asStr "emergent_companion_reflections"
      (← requireField fields "emergent_companion_reflections")
    let tags ← asStrList "tags" (← requireField fields "tags")
    let trace ← validateTrace (← requireField fields "stewardship_trace")
    .ok ⟨id, text, metadata, publish, summary, timestamp, label, etype, tone,
         description, ritual, insights, reflections, tags, trace⟩
  | _ => .error (.validation "__root__" "mapping expected")

/-! ### parse_journal (src/src/journal/parser.py)

`parse_journal` decodes the file, dispatches on the envelope shape, then
normalizes and validates each raw entry.  The embedding starts from the
decoded document (the result of `json.load`). -/

/-- The sequential text replacements parse_journal applies to each entry
(`json.dumps`, six `str.replace` calls, `json.loads`).  Replacement is
applied to the serialized text; on documents whose strings contain only
characters that `json.dumps` does not escape, that is exactly a
per-string replacement over every key and value, which is how it is
modelled here (the patterns contain no quote, backslash or structural
character, so a match can never span a string boundary in the dump). -/
def applyNameReplacements (s : String) : String :=
  pyReplace (pyReplace (pyReplace (pyReplace (pyReplace (pyReplace
    s "Lyra" "Emergent Companion") "Brian" "Steward") "Sandi" "Co-Steward")
    "lyra" "emergent companion") "brian" "steward") "sandi" "co-steward"

/-- Rebuild an object field list with `json.loads` duplicate-key
semantics: a key keeps its first position and its last value (CPython
dicts are built by sequential insertion, which `Json.setKey` folding
reproduces). -/
def dedupFields (fields : List (String × Json)) : List (String × Json) :=
  fields.foldl (fun acc kv => Json.setKey acc kv.1 kv.2) []

mutual
/-- Per-string image of the dumps/replace/loads round of parse_journal.
Keys and values are rewritten, and each rebuilt object is passed through
`json.loads` duplicate-key handling in case two distinct keys are mapped
to the same replaced key. -/
def jsonReplaceNames : Json → Json
  | .null => .null
  | .bool b => .bool b
  | .num n => .num n
  | .str s => .str (applyNameReplacements s)
  | .arr elems => .arr (jsonReplaceNamesList elems)
  | .obj fields => .obj (dedupFields (jsonReplaceNamesFields fields))

def jsonReplaceNamesList : List Json → List Json
  | [] => []
  | v :: rest => jsonReplaceNames v :: jsonReplaceNamesList rest

def jsonReplaceNamesFields : List (String × Json) → List (String × Json)
  | [] => []
  | (k, v) :: rest =>
    (applyNameReplacements k, jsonReplaceNames v) :: jsonReplaceNamesFields rest
end

/-! ### parse_journal, per-entry normalization (src/src/journal/parser.py) -/

/-- Python `key.endswith("_contribution")`, as a structural recursion on
character lists. -/
def strEndsWith (s suffix : String) : Bool :=
  suffix.data.isSuffixOf s.data

/-- Python `str.title()`: the first alphabetic character of every run of
alphabetic characters is uppercased, the rest lowercased.  Only reached
through the legacy `_contribution` migration branch, which none of the
verified inputs exercise. -/
def pyTitle (s : String) : String :=
  String.mk (go false s.data)
where go : Bool → List Char → List Char
  | _, [] => []
  | prevAlpha, c :: rest =>
    if c.isAlpha then
      (if prevAlpha then c.toLower else c.toUpper) :: go true rest
    else
      c :: go false rest

/-- Python `"; ".join(f"{k}: {v}" for k, v in contribution_data.items())`
for a dict, `str(contribution_data)` otherwise. -/
def contributionText : Json → String
  | .obj kvs =>
    String.intercalate "; " (kvs.map (fun kv => kv.1 ++ ": " ++ pyStr kv.2))
  | v => pyStr v

/-- Participant records built from legacy `*_contribution` keys of a
ritual_details dict, in key order. -/
def legacyParticipants : List (String × Json) → List Json
  | [] => []
  | (k, v) :: rest =>
    if strEndsWith k "_contribution" then
      Json.obj
        [("participant",
          .str (pyTitle (pyReplace (pyReplace k "_contribution" "") "_" " "))),
         ("contribution", .str (contributionText v)),
         ("role", .str "Participant")] :: legacyParticipants rest
    else
      legacyParticipants rest

/-- Python `"heartbeat" in item.get("tags", [])` for a JSON tags list
(string equality against each element; the branch is unreachable for the
verified inputs when tags is not a list). -/
def tagsHasHeartbeat : Json → Bool
  | .arr elems =>
    elems.any (fun e => match e with | .str s => s = "heartbeat" | _ => false)
  | _ => false

/-- Lines 113-151 of parser.py: rewrite a legacy `*_contribution` style
ritual_details dict into the participants form, then fill in any of the
three required ritual_details keys that are missing. -/
def normalizeRitual (item : List (String × Json)) : List (String × Json) :=
  match Json.lookupKey item "ritual_details" with
  | some (.obj rd0) =>
    let rd1 :=
      if rd0.any (fun kv => strEndsWith kv.1 "_contribution") then
        [("description", Json.getD item "description" (.str "Ritual observance")),
         ("participants", .arr (legacyParticipants rd0)),
         ("ritual_type",
          .str (if tagsHasHeartbeat (Json.getD item "tags" (.arr []))
                then "heartbeat" else "observance"))]
      else rd0
    let rd2 :=
      if Json.hasKey rd1 "description" then rd1
      else Json.setKey rd1 "description"
        (Json.getD item "description" (.str "Ritual observance"))
    let rd3 :=
      if Json.hasKey rd2 "ritual_type" then rd2
      else Json.setKey rd2 "ritual_type" (.str "observance")
    let rd4 :=
      if Json.hasKey rd3 "participants" then rd3
      else Json.setKey rd3 "participants" (.arr [])
    Json.setKey item "ritual_details" (.obj rd4)
  | _ => item

/-- Image of an object field list under the dumps/replace/loads round. -/
def replaceNamesFields (fields : List (String × Json)) : List (String × Json) :=
  dedupFields (jsonReplaceNamesFields fields)

/-- Default stewardship trace substituted for legacy entries. -/
def legacyTraceDefault : Json :=
  .obj [("committed_by", .str "Unknown"),
        ("witnessed_by", .str "Unknown"),
        ("commitment_type", .str "Legacy import"),
        ("reason", .str "Migrated from legacy format")]

/-- Lines 165-188 of parser.py: when the entry has no timestamp (the
quoted condition simplifies to exactly that), rebuild it as a
fully-defaulted legacy entry, in the dict-literal key order of the
source. -/
def legacyDefaults (item : List (String × Json)) : List (String × Json) :=
  if (Json.hasKey item "id" && Json.hasKey item "text"
        && !Json.hasKey item "timestamp")
      || !Json.hasKey item "timestamp" then
    [("id", Json.getD item "id" .null),
     ("text", Json.getD item "text" .null),
     ("metadata", Json.getD item "metadata" (.obj [])),
     ("publish", Json.getD item "publish" (.bool false)),
     ("summary", Json.getD item "summary" .null),
     ("timestamp", Json.getD item "timestamp" (.str "1970-01-01T00:00:00Z")),
     ("label", Json.getD item "label" (.str "Journal Entry")),
     ("entry_type", Json.getD item "entry_type" (.str "journal")),
     ("emotional_tone", Json.getD item "emotional_tone" (.arr [.str "neutral"])),
     ("description", Json.getD item "description" (Json.getD item "text" (.str ""))),
     ("key_insights", Json.getD item "key_insights" (.arr [])),
     ("emergent_companion_reflections",
      Json.getD item "emergent_companion_reflections"
        (Json.getD item "text" (.str ""))),
     ("tags", Json.getD item "tags" (.arr [])),
     ("stewardship_trace", Json.getD item "stewardship_trace" legacyTraceDefault)]
  else
    item

/-- Lines 190-209 of parser.py: fill each still-missing required field
with its default, in source order. -/
def ensureRequiredDefaults (item : List (String × Json)) : List (String × Json) :=
  let i1 := if Json.hasKey item "timestamp" then item
            else Json.setKey item "timestamp" (.str "1970-01-01T00:00:00Z")
  let i2 := if Json.hasKey i1 "entry_type" then i1
            else Json.setKey i1 "entry_type" (.str "journal")
  let i3 := if Json.hasKey i2 "emotional_tone" then i2
            else Json.setKey i2 "emotional_tone" (.arr [.str "neutral"])
  let i4 := if Json.hasKey i3 "description" then i3
            else Json.setKey i3 "description"
              (Json.getD i3 "text" (.str "No description available"))
  let i5 := if Json.hasKey i4 "emergent_companion_reflections" then i4
            else Json.setKey i4 "emergent_companion_reflections"
              (Json.getD i4 "text" (.str "No reflections available"))
  let i6 := if Json.hasKey i5 "tags" then i5
            else Json.setKey i5 "tags" (.arr [])
  if Json.hasKey i6 "stewardship_trace" then i6
  else Json.setKey i6 "stewardship_trace" legacyTraceDefault

/-- Python `", ".join(xs)`: every element must be a string, otherwise a
TypeError is raised. -/
def joinStrElems : List Json → Except EntryErr (List String)
  | [] => .ok []
  | .str s :: rest => do
    let tail ← joinStrElems rest
    .ok (s :: tail)
  | _ :: _ => .error (.typeErr "sequence item: expected str instance")

/-- Lines 211-221 of parser.py: inside the stewardship_trace dict, join a
list-valued witnessed_by and then a list-valued committed_by into a
single comma-separated string. -/
def coerceTraceLists (item : List (String × Json)) :
    Except EntryErr (List (String × Json)) := do
  match Json.lookupKey item "stewardship_trace" with
  | some (.obj trace0) => do
    let trace1 ←
      match Json.lookupKey trace0 "witnessed_by" with
      | some (.arr elems) => do
        let strs ← joinStrElems elems
        Except.ok (Json.setKey trace0 "witnessed_by"
          (.str (String.intercalate ", " strs)))
      | _ => Except.ok trace0
    let trace2 ←
      match Json.lookupKey trace1 "committed_by" with
      | some (.arr elems) => do
        let strs ← joinStrElems elems
        Except.ok (Json.setKey trace1 "committed_by"
          (.str (String.intercalate ", " strs)))
      | _ => Except.ok trace1
    Except.ok (Json.setKey item "stewardship_trace" (.obj trace2))
  | _ => Except.ok item

/-- The whole per-entry body of the parse_journal loop: reflection-field
aliasing, ritual_details migration, the dumps/replace/loads name
rewriting, legacy defaulting, required-field defaulting, stewardship
list coercion and finally pydantic validation.  Python raises
AttributeError or TypeError when an entry is not a dict (the exact class
depends on the entry type); both are collapsed into one error here, a
path none of the verified inputs reaches. -/
def aliasReflection (item : List (String × Json)) : List (String × Json) :=
  match Json.lookupKey item "lyra_reflection" with
  | some v =>
    Json.setKey (Json.eraseKey item "lyra_reflection")
      "emergent_companion_reflections" v
  | none => item

def processEntry : Json → Except EntryErr JournalEntry
  | .obj item0 =>
    Except.bind
      (coerceTraceLists
        (ensureRequiredDefaults (legacyDefaults
          (replaceNamesFields (normalizeRitual (aliasReflection item0))))))
      (fun itemF => validateEntry (.obj itemF))
  | _ => .error (.attrErr "journal entry is not a mapping")

/-! ### parse_journal, envelope dispatch (lines 87-103) -/

/-- Unwrap every element of a `journal_entry`-wrapped list.  A later
element without the wrapper key raises KeyError, a non-dict element
raises TypeError (line 98 of parser.py subscripts every item). -/
def unwrapAll : List Json → Except PyErr (List Json)
  | [] => .ok []
  | .obj fields :: rest =>
    match Json.lookupKey fields "journal_entry" with
    | some v => do
      let tail ← unwrapAll rest
      .ok (v :: tail)
    | none => .error (.keyError "journal_entry")
  | _ :: _ => .error (.typeError "entry wrapper is not a mapping")

/-- Envelope dispatch of parse_journal: a dict with an `entries` key, a
dict with a `journal_entry` key, a list whose first element carries the
wrapper, a bare legacy list, and everything else fails with
`ValueError("Invalid journal file format")`.  A dict whose `entries`
value is not a list makes the Python for-loop fail (or iterate
nonsensically); that path is modelled as a TypeError and reached by no
verified input. -/
def extractRawEntries : Json → Except PyErr (List Json)
  | .obj fields =>
    match Json.lookupKey fields "entries" with
    | some (.arr elems) => .ok elems
    | some _ => .error (.typeError "entries value is not a list")
    | none =>
      match Json.lookupKey fields "journal_entry" with
      | some v => .ok [v]
      | none => .error (.valueError "Invalid journal file format")
  | .arr [] => .ok []
  | .arr (first :: rest) =>
    match first with
    | .obj ffields =>
      if Json.hasKey ffields "journal_entry" then unwrapAll (first :: rest)
      else .ok (first :: rest)
    | _ => .ok (first :: rest)
  | _ => .error (.valueError "Invalid journal file format")

/-- Validate every raw entry in order; the whole parse fails on the first
bad entry. -/
def processAll : List Json → Except EntryErr (List JournalEntry)
  | [] => .ok []
  | item :: rest => do
    let e ← processEntry item
    let tail ← processAll rest
    .ok (e :: tail)

/-- parse_journal on a decoded JSON document. -/
def parseJournal (doc : Json) : Except PyErr (List JournalEntry) := do
  let raw ← extractRawEntries doc
  (processAll raw).mapError EntryErr.toPy

/-! ### toggle_publish_flag (src/src/publish/mark.py)

The function loads the raw JSON document (no pydantic validation),
locates the first entry whose stringified `id` equals the requested id,
inverts the `publish` flag of that entry, and rewrites the file only when an
entry was updated.  The embedding works on the decoded document and
returns the updated flag together with the post-call document; the file
content changes exactly when the flag is true, which is how the byte-
identity claims are stated. -/

/-- Flag inversion on one entry dict:
`entry["publish"] = not bool(entry.get("publish", False))`. -/
def togglePub (entryFields : List (String × Json)) : List (String × Json) :=
  Json.setKey entryFields "publish"
    (.bool (!pyTruthy (Json.getD entryFields "publish" (.bool false))))

/-- One step of the search loop: `entry = item.get("journal_entry", item)`
followed by the id match and the flag inversion.  Returns whether a match
was found (the Python loop breaks at the first match) together with the
possibly rewritten item list. -/
def toggleInEntries (entryId : String) :
    List Json → Except PyErr (Bool × List Json)
  | [] => .ok (false, [])
  | item :: rest =>
    match item with
    | .obj fields =>
      match Json.lookupKey fields "journal_entry" with
      | some (.obj innerFields) =>
        if pyStr (Json.getD innerFields "id" .null) = entryId then
          .ok (true,
            .obj (Json.setKey fields "journal_entry"
              (.obj (togglePub innerFields))) :: rest)
        else
          match toggleInEntries entryId rest with
          | .ok (updated, restOut) => .ok (updated, item :: restOut)
          | .error e => .error e
      | some _ =>
        -- the wrapped value is not a dict: entry.get then raises
        .error (.attributeError "journal_entry value is not a mapping")
      | none =>
        if pyStr (Json.getD fields "id" .null) = entryId then
          .ok (true, .obj (togglePub fields) :: rest)
        else
          match toggleInEntries entryId rest with
          | .ok (updated, restOut) => .ok (updated, item :: restOut)
          | .error e => .error e
    | _ => .error (.attributeError "journal entry item is not a mapping")

/-- toggle_publish_flag on a decoded document: the entry list is the
document itself when it is a JSON array, otherwise `data.get("entries",
[])`; the returned document is what the file holds after the call (the
original document when nothing was updated, since the file is rewritten
only on an update). -/
def togglePublishFlag (doc : Json) (entryId : String) :
    Except PyErr (Bool × Json) :=
  match doc with
  | .arr entries =>
    match toggleInEntries entryId entries with
    | .ok (updated, entriesOut) =>
      if updated then .ok (true, .arr entriesOut) else .ok (false, doc)
    | .error e => .error e
  | .obj fields =>
    match Json.lookupKey fields "entries" with
    | some (.arr entries) =>
      match toggleInEntries entryId entries with
      | .ok (updated, entriesOut) =>
        if updated then
          .ok (true, .obj (Json.setKey fields "entries" (.arr entriesOut)))
        else
          .ok (false, doc)
      | .error e => .error e
    | some _ => .error (.typeError "entries value is not a list")
    | none => .ok (false, doc)
  | _ => .error (.attributeError "document has no entries")

/-! ### sanitize_text and export_marked_entries (src/src/publish/export.py) -/

/-- Case-insensitive substring test, modelling `re.search` with the
IGNORECASE flag for a plain-word pattern. -/
def containsCI (s pat : String) : Bool :=
  go (s.data.map Char.toLower)
where
  patL : List Char := pat.data.map Char.toLower
  go : List Char → Bool
    | [] => patL.isPrefixOf []
    | c :: rest => patL.isPrefixOf (c :: rest) || go rest

/-- Case-insensitive replacement of every occurrence of a plain-word
pattern, modelling `pattern.sub(replacement, text)` with IGNORECASE:
matching is case-insensitive, scanning is left to right and
non-overlapping. -/
def replaceCI (s pat rep : String) : String :=
  String.mk (go s.data.length s.data)
where
  patL : List Char := pat.data.map Char.toLower
  go : Nat → List Char → List Char
    | _, [] => []
    | 0, cs => cs
    | Nat.succ n, c :: rest =>
      if patL ≠ [] ∧ patL.isPrefixOf ((c :: rest).map Char.toLower) then
        rep.data ++ go n (List.drop (patL.length - 1) rest)
      else
        c :: go n rest

/-- sanitize_text: redact the fixed sensitive patterns from a body text.
The Python function takes `entry.text`; when that legacy field is absent
the argument of the model is `none` and `pattern.search(None)` raises
`TypeError`, which is the modelled error. -/
def sanitizeText : Option String → Except PyErr (String × Bool)
  | none => .error (.typeError "expected string or bytes-like object")
  | some text =>
    let step := fun (acc : String × Bool) (pat : String) =>
      if containsCI acc.1 pat then (replaceCI acc.1 pat "[REDACTED]", true)
      else acc
    .ok (["password", "secret"].foldl step (text, false))

/-- The Markdown file body written for one published entry: YAML front
matter with the id and the optional summary, the redaction banner when a
redaction occurred, then the sanitized body. -/
def renderMarkdown (e : JournalEntry) (sanitized : String) (redacted : Bool) :
    String :=
  "---\n" ++ "id: \"" ++ pyStr (dumpOptStr e.id) ++ "\"\n" ++
  (match e.summary with
   | some s => if s ≠ "" then "summary: \"" ++ s ++ "\"\n" else ""
   | none => "") ++
  "---\n\n" ++
  (if redacted then "<!-- WARNING: Potential secrets were redacted -->\n\n"
   else "") ++
  sanitized

/-- The per-entry export loop of export_marked_entries, starting from the
parsed entries (path validation and directory creation are outside the
model).  Files written before an exception persist, so the result is the
list of written files (name stem and content) paired with the exception
that stopped the loop, if any. -/
def exportLoop : List JournalEntry →
    List (String × String) × Option PyErr
  | [] => ([], none)
  | e :: rest =>
    if e.publish then
      match sanitizeText e.text with
      | .error err => ([], some err)
      | .ok (sanitized, redacted) =>
        let file := (pyStr (dumpOptStr e.id) ++ ".md",
                     renderMarkdown e sanitized redacted)
        let (files, err) := exportLoop rest
        (file :: files, err)
    else
      exportLoop rest

/-- export_marked_entries on a decoded journal document: parse, then run
the export loop over the parsed entries; a parse failure writes
nothing. -/
def exportMarkedEntries (doc : Json) : List (String × String) × Option PyErr :=
  match parseJournal doc with
  | .error err => ([], some err)
  | .ok entries => exportLoop entries

/-! ### EncryptedTorchStorage (src/src/journal/encrypted_torch_storage.py)

save_journal_entries and load_journal_entries compose three layers: the
repository-owned dump/validate round through the pydantic schema, the
`torch.save`/`torch.load` object serialization, and Fernet symmetric
encryption.  The last two are third-party libraries; they enter the model
as an abstract stack carrying exactly their documented guarantees
(faithful deserialization of its own output, and authenticated
encryption that fails closed under the wrong key). -/

/-- Abstract model of the torch pickling and Fernet encryption layers of
EncryptedTorchStorage, over arbitrary key, byte-string and blob types.
`unpickle_pickle` is the round-trip guarantee of torch.save/torch.load,
`decrypt_encrypt` and `decrypt_wrong_key` are the Fernet guarantees
(HMAC verification makes decryption under any other key raise
InvalidToken). -/
structure TorchFernetStack (Key Bytes Blob : Type) where
  pickle : List Json → Bytes
  unpickle : Bytes → Option (List Json)
  encrypt : Key → Bytes → Blob
  decrypt : Key → Blob → Option Bytes
  unpickle_pickle : ∀ d, unpickle (pickle d) = some d
  decrypt_encrypt : ∀ k b, decrypt k (encrypt k b) = some b
  decrypt_wrong_key : ∀ k k2 b, k2 ≠ k → decrypt k2 (encrypt k b) = none

/-- save_journal_entries: dump every entry to a mapping, pickle the list,
encrypt with the storage key, and the resulting blob is the file
content. -/
def saveJournalEntries {Key Bytes Blob : Type}
    (st : TorchFernetStack Key Bytes Blob) (key : Key)
    (entries : List JournalEntry) : Blob :=
  st.encrypt key (st.pickle (entries.map dumpEntry))

/-- Validate every dumped mapping back into a JournalEntry, as the load
path does entry by entry. -/
def validateAll : List Json → Except EntryErr (List JournalEntry)
  | [] => .ok []
  | d :: rest => do
    let e ← validateEntry d
    let tail ← validateAll rest
    .ok (e :: tail)

/-- load_journal_entries: read the blob, decrypt (InvalidToken on
authentication failure, before any entry is produced), unpickle, then
re-validate each entry against the schema. -/
def loadJournalEntries {Key Bytes Blob : Type}
    (st : TorchFernetStack Key Bytes Blob) (key : Key) (blob : Blob) :
    Except PyErr (List JournalEntry) :=
  match st.decrypt key blob with
  | none => .error .invalidToken
  | some bytes =>
    match st.unpickle bytes with
    | none => .error (.valueError "unpickling failed")
    | some dicts => (validateAll dicts).mapError EntryErr.toPy

/-! ### ensure_journal_path (src/src/utils/path_safety.py)

The guard runs against the real filesystem, modelled here as a finite map
from absolute paths (component lists from the root) to nodes.  Path
resolution follows POSIX semantics, the ones `Path.resolve(strict=True)`
exposes: components are processed left to right, `..` drops the last
already-resolved component, symbolic links (modelled with absolute
targets) restart resolution at their target, and a missing node or an
exhausted symlink budget fails — CPython raises there, and the guard
catches every exception from resolve as a does-not-exist error. -/

inductive FSNode where
  | file : FSNode
  | dir : FSNode
  | symlink (target : List String) : FSNode
deriving Repr, DecidableEq

/-- A filesystem: finite map from absolute paths to nodes.  The root `[]`
is listed explicitly as a directory. -/
def FileSystem := List (List String × FSNode)

def lookupFS (fs : FileSystem) (p : List String) : Option FSNode :=
  match fs with
  | [] => none
  | (q, node) :: rest => if q = p then some node else lookupFS rest p

/-- Resolution loop: `acc` is the already-resolved prefix (which never
contains a symlink), `remaining` the components still to process, `fuel`
bounds symlink chasing (CPython raises ELOOP on a cycle; fuel exhaustion
models that, and the guard reports both as nonexistent). -/
def resolveGo (fs : FileSystem) : Nat → List String → List String →
    Option (List String)
  | _, acc, [] => some acc
  | 0, _, _ => none
  | Nat.succ fuel, acc, comp :: remaining =>
    if comp = "." then resolveGo fs fuel acc remaining
    else if comp = ".." then resolveGo fs fuel acc.dropLast remaining
    else
      match lookupFS fs (acc ++ [comp]) with
      | some .dir => resolveGo fs fuel (acc ++ [comp]) remaining
      | some .file =>
        if remaining.isEmpty then some (acc ++ [comp]) else none
      | some (.symlink target) => resolveGo fs fuel [] (target ++ remaining)
      | none => none

/-- `Path.resolve(strict=True)` from the root on an absolute component
list. -/
def resolvePath (fs : FileSystem) (fuel : Nat) (p : List String) :
    Option (List String) :=
  resolveGo fs fuel [] p

/-- A user-supplied path: absolute or relative, as a component list
(inputs containing `~` are expanded before the guard logic and are not
modelled). -/
structure PathInput where
  absolute : Bool
  comps : List String

/-- The filesystem location of the project checkout in the model: the
approved journal roots of path_safety.py are PROJECT_ROOT/data/gemjournals
and PROJECT_ROOT/data/journal. -/
def approvedJournalRoots : List (List String) :=
  [["app", "data", "gemjournals"], ["app", "data", "journal"]]

/-- Python `resolved.is_symlink()` / the parent walk of
ensure_journal_path: true when any prefix of the path (the path itself
included, up to and including the filesystem root) is a symlink. -/
def anyPrefixSymlink (fs : FileSystem) (p : List String) : Bool :=
  (List.range (p.length + 1)).any fun k =>
    match lookupFS fs (p.take k) with
    | some (.symlink _) => true
    | _ => false

/-- ensure_journal_path: the candidate is checked lexically against the
approved roots (absolute inputs must have a root as a component prefix;
relative inputs are anchored under the first root), resolved strictly,
rejected when it is a directory, rejected when any component of the
resolved path is a symlink, and finally checked for containment in the
approved roots.  Error strings abbreviate the messages of the source. -/
def ensureJournalPath (fs : FileSystem) (fuel : Nat) (p : PathInput) :
    Except String (List String) := do
  let raw ←
    if p.absolute then
      if approvedJournalRoots.any (fun root => root.isPrefixOf p.comps) then
        Except.ok p.comps
      else
        .error "Absolute journal path must be located within an approved journal directory"
    else
      Except.ok (["app", "data", "gemjournals"] ++ p.comps)
  match resolvePath fs fuel raw with
  | none => .error "Journal path does not exist"
  | some resolved =>
    if lookupFS fs resolved = some .dir then
      .error "Journal path must reference a file"
    else if anyPrefixSymlink fs resolved then
      .error "Journal path cannot include symbolic links"
    else if approvedJournalRoots.any (fun root => root.isPrefixOf resolved) then
      .ok resolved
    else
      .error "Journal path must be located within an approved journal directory"

/-! ### Derived definitions used by the claim statements -/

/-- Serialization into the wrapped-JSON envelope, as export_to_json writes
it: a list of `{"journal_entry": model_dump(e)}` objects. -/
def serializeEntries (es : List JournalEntry) : Json :=
  .arr (es.map fun e => .obj [("journal_entry", dumpEntry e)])

/-- The envelope shapes whose dispatch does not raise
`ValueError("Invalid journal file format")`: any list, or any dict
carrying an `entries` or `journal_entry` key. -/
def acceptedEnvelopeShape : Json → Bool
  | .arr _ => true
  | .obj fields =>
    Json.hasKey fields "entries" || Json.hasKey fields "journal_entry"
  | _ => false

/-- The two envelope shapes the specification names: a list in which every
element is an object with a single `journal_entry` key, or a single
object with a top-level `journal_entry` key.  (Stated from the
specification text, for comparison with the dispatch of the source.) -/
def specAcceptedEnvelope : Json → Prop
  | .arr elems =>
    ∀ item ∈ elems, ∃ v, item = Json.obj [("journal_entry", v)]
  | .obj fields => Json.hasKey fields "journal_entry" = true
  | _ => False

/-- The entry list toggle_publish_flag iterates:
`data if isinstance(data, list) else data.get("entries", [])`. -/
def docEntryList : Json → Option (List Json)
  | .arr entries => some entries
  | .obj fields =>
    match Json.lookupKey fields "entries" with
    | some (.arr entries) => some entries
    | some _ => none
    | none => some []
  | _ => none

/-- The dict the toggle operates on for one item:
`item.get("journal_entry", item)`. -/
def unwrapItemFields (fields : List (String × Json)) : List (String × Json) :=
  match Json.lookupKey fields "journal_entry" with
  | some (.obj inner) => inner
  | _ => fields

/-- Whether one item of the entry list matches the requested id:
`str(entry.get("id")) == entry_id`. -/
def entryMatches (entryId : String) : Json → Bool
  | .obj fields => pyStr (Json.getD (unwrapItemFields fields) "id" .null) = entryId
  | _ => false

/-- Items the toggle loop can traverse without raising: dicts whose
`journal_entry` value, when present, is itself a dict. -/
def wellFormedItem : Json → Bool
  | .obj fields =>
    match Json.lookupKey fields "journal_entry" with
    | some (.obj _) => true
    | some _ => false
    | none => true
  | _ => false

/-- The effective publish state of one item:
`bool(entry.get("publish", False))`. -/
def entryPublishState : Json → Bool
  | .obj fields =>
    pyTruthy (Json.getD (unwrapItemFields fields) "publish" (.bool false))
  | _ => false

/-- The effective publish states of every entry of a journal document, in
file order. -/
def docPublishStates (doc : Json) : List Bool :=
  ((docEntryList doc).getD []).map entryPublishState

/-- A journal entry object carrying the required fields except any
reflections field (under any spelling) and no legacy `text` field; used
to state what the parser does when the reflections field is absent. -/
def entryFieldsWithoutReflections (ts et : String) (tone : List String)
    (desc : String) (tags : List String) (tr : StewardshipTrace) :
    List (String × Json) :=
  [("timestamp", .str ts),
   ("entry_type", .str et),
   ("emotional_tone", .arr (tone.map Json.str)),
   ("description", .str desc),
   ("tags", .arr (tags.map Json.str)),
   ("stewardship_trace", dumpTrace tr)]

/-- A minimal well-formed entry object with the reflections value "r"
supplied under a chosen field name, as in the spelling scenarios of the
specification. -/
def minimalEntryDocWith (reflKey : String) : Json :=
  .arr [.obj [("journal_entry", .obj
    [("timestamp", .str "2025-01-01T00:00:00Z"),
     ("entry_type", .str "journal"),
     ("emotional_tone", .arr [.str "calm"]),
     ("description", .str "d"),
     (reflKey, .str "r"),
     ("tags", .arr [.str "t"]),
     ("stewardship_trace", .obj
       [("committed_by", .str "A"),
        ("witnessed_by", .str "C"),
        ("commitment_type", .str "x"),
        ("reason", .str "y")])])]]

/-- The scenario input of the specification: one wrapped entry with a
singular `lyra_reflection` and a list-valued `committed_by`. -/
def scenarioDoc : Json :=
  .arr [.obj [("journal_entry", .obj
    [("timestamp", .str "2025-01-01T00:00:00Z"),
     ("entry_type", .str "journal"),
     ("emotional_tone", .arr [.str "calm"]),
     ("description", .str "d"),
     ("lyra_reflection", .str "r"),
     ("tags", .arr [.str "t"]),
     ("stewardship_trace", .obj
       [("committed_by", .arr [.str "A", .str "B"]),
        ("witnessed_by", .str "C"),
        ("commitment_type", .str "x"),
        ("reason", .str "y")])])]]

/-- The entry the scenario input parses to. -/
def scenarioExpected : JournalEntry :=
  ⟨none, none, [], false, none, "2025-01-01T00:00:00Z", "Journal Entry",
   "journal", ["calm"], "d", none, [], "r", ["t"], ⟨"A, B", "C", "x", "y"⟩⟩

/-- A valid journal file (in the wrapped envelope) whose single entry is
marked for publication but carries no legacy `text` field. -/
def publishedNoTextDoc : Json :=
  .arr [.obj [("journal_entry", .obj
    [("timestamp", .str "2025-01-01T00:00:00Z"),
     ("entry_type", .str "journal"),
     ("emotional_tone", .arr [.str "calm"]),
     ("description", .str "d"),
     ("emergent_companion_reflections", .str "r"),
     ("tags", .arr [.str "t"]),
     ("publish", .bool true),
     ("stewardship_trace", .obj
       [("committed_by", .str "A"),
        ("witnessed_by", .str "C"),
        ("commitment_type", .str "x"),
        ("reason", .str "y")])])]]

/-- A valid entry whose description is the literal string "Lyra",
exercising the name-replacement step of the parser. -/
def lyraDescriptionEntry : JournalEntry :=
  ⟨none, none, [], false, none, "2025-01-01T00:00:00Z", "Journal Entry",
   "journal", ["calm"], "Lyra", none, [], "r", ["t"], ⟨"A", "C", "x", "y"⟩⟩

/-- What the round trip turns `lyraDescriptionEntry` into: the name
replacement rewrites the description. -/
def lyraDescriptionRewritten : JournalEntry :=
  ⟨none, none, [], false, none, "2025-01-01T00:00:00Z", "Journal Entry",
   "journal", ["calm"], "Emergent Companion", none, [], "r", ["t"],
   ⟨"A", "C", "x", "y"⟩⟩

/-- A small concrete entry with no occurrence of any replaced name, used
to instantiate the universally quantified theorems. -/
def plainEntry : JournalEntry :=
  ⟨some "7", some "body", [], true, some "sum", "2025-01-01T00:00:00Z",
   "Journal Entry", "journal", ["calm"], "d", none, ["k"], "r", ["t"],
   ⟨"A", "C", "x", "y"⟩⟩

/-- Concrete filesystem for the path-safety evaluations: an approved root
containing a regular journal file, a symlink to it from the same
directory, and a subdirectory (so that a `..` route to the file
exists). -/
def demoFS : FileSystem :=
  [([], .dir),
   (["app"], .dir),
   (["app", "data"], .dir),
   (["app", "data", "gemjournals"], .dir),
   (["app", "data", "gemjournals", "real.json"], .file),
   (["app", "data", "gemjournals", "link.json"],
    .symlink ["app", "data", "gemjournals", "real.json"]),
   (["app", "data", "gemjournals", "sub"], .dir)]

/-- A toy instantiation of the torch/Fernet stack, used to evaluate the
storage theorems at concrete inputs: pickling is the identity on the
dumped mappings and encryption pairs the blob with the key. -/
def demoStack : TorchFernetStack Nat (List Json) (Nat × List Json) where
  pickle := id
  unpickle := some
  encrypt := fun k b => (k, b)
  decrypt := fun k p => if p.1 = k then some p.2 else none
  unpickle_pickle := fun _ => rfl
  decrypt_encrypt := fun k b => by simp
  decrypt_wrong_key := fun k k2 b h => by
    simp [show k ≠ k2 from fun hk => h hk.symm]

/-! ### Helper lemmas: pydantic validation round-trips model_dump -/

theorem exceptBind_ok {α β ε : Type} (a : α) (f : α → Except ε β) :
    (Except.ok a >>= f) = f a := rfl

theorem exceptBind_err {α β ε : Type} (e : ε) (f : α → Except ε β) :
    ((Except.error e : Except ε α) >>= f) = .error e := rfl

theorem asStrList_go_map (field : String) (xs : List String) :
    asStrList.go field (xs.map Json.str) = .ok xs := by
  induction xs with
  | nil => rfl
  | cons x rest ih => simp only [List.map, asStrList.go, ih]; rfl

theorem asStrList_map (field : String) (xs : List String) :
    asStrList field (.arr (xs.map Json.str)) = .ok xs := by
  simp only [asStrList, asStrList_go_map]

theorem validateContribution_dump (field : String) (c : RitualContribution) :
    validateContribution field (dumpContribution c) = .ok c := rfl

theorem validateContributionList_map (field : String)
    (cs : List RitualContribution) :
    validateContributionList field (cs.map dumpContribution) = .ok cs := by
  induction cs with
  | nil => rfl
  | cons c rest ih =>
    simp only [List.map, validateContributionList, validateContribution_dump,
      exceptBind_ok, ih]

theorem validateRitualDetails_dump (r : RitualDetails) :
    validateRitualDetails (dumpRitualDetails r) = .ok r := by
  obtain ⟨d, ps, rt⟩ := r
  simp only [validateRitualDetails, dumpRitualDetails, requireField,
    Json.lookupKey, String.reduceEq, reduceIte, asStr, exceptBind_ok,
    validateContributionList_map]

theorem validateTrace_dump (t : StewardshipTrace) :
    validateTrace (dumpTrace t) = .ok t := rfl

theorem asOptStr_dump (field : String) (o : Option String) :
    asOptStr field (dumpOptStr o) = .ok o := by
  cases o <;> rfl

theorem validateEntry_dump (e : JournalEntry) :
    validateEntry (dumpEntry e) = .ok e := by
  obtain ⟨id, text, md, pub, summ, ts, lab, et, tone, desc, rit, ins, refl,
    tg, tr⟩ := e
  cases rit with
  | none =>
    cases id <;> cases text <;> cases summ <;>
      simp only [validateEntry, dumpEntry, dumpEntryFields, dumpOptStr,
        requireField, Json.lookupKey, String.reduceEq, reduceIte, asStr,
        asOptStr, asBool, exceptBind_ok, asStrList_map, validateTrace_dump]
  | some r =>
    obtain ⟨d, ps, rt⟩ := r
    cases id <;> cases text <;> cases summ <;>
      simp only [validateEntry, dumpEntry, dumpEntryFields, dumpOptStr,
        dumpRitualDetails, validateRitualDetails, requireField,
        Json.lookupKey, String.reduceEq, reduceIte, asStr, asOptStr, asBool,
        exceptBind_ok, asStrList_map, validateTrace_dump,
        validateContributionList_map]

theorem aliasReflection_dump (e : JournalEntry) :
    aliasReflection (dumpEntryFields e) = dumpEntryFields e := rfl

set_option maxHeartbeats 2000000 in
theorem normalizeRitual_dump (e : JournalEntry) :
    normalizeRitual (dumpEntryFields e) = dumpEntryFields e := by
  obtain ⟨id, text, md, pub, summ, ts, lab, et, tone, desc, rit, ins, refl,
    tg, tr⟩ := e
  cases rit <;> rfl

theorem legacyDefaults_dump (e : JournalEntry) :
    legacyDefaults (dumpEntryFields e) = dumpEntryFields e := rfl

theorem ensureRequiredDefaults_dump (e : JournalEntry) :
    ensureRequiredDefaults (dumpEntryFields e) = dumpEntryFields e := rfl

theorem coerceTraceLists_dump (e : JournalEntry) :
    coerceTraceLists (dumpEntryFields e) = .ok (dumpEntryFields e) := rfl

/-- On an entry that the dumps/replace/loads name rewriting leaves
unchanged, the whole per-entry pipeline of parse_journal inverts
model_dump. -/
theorem processEntry_dump (e : JournalEntry)
    (h : jsonReplaceNames (dumpEntry e) = dumpEntry e) :
    processEntry (dumpEntry e) = .ok e := by
  have hfix : replaceNamesFields (dumpEntryFields e) = dumpEntryFields e := by
    have h2 : Json.obj (replaceNamesFields (dumpEntryFields e)) =
        Json.obj (dumpEntryFields e) := h
    exact Json.obj.inj h2
  show processEntry (.obj (dumpEntryFields e)) = .ok e
  simp only [processEntry]
  rw [aliasReflection_dump, normalizeRitual_dump, hfix, legacyDefaults_dump,
    ensureRequiredDefaults_dump, coerceTraceLists_dump]
  exact validateEntry_dump e

/-! ### Claim C6: the specification scenario -/

/-- C6.  Parsing the scenario input (single wrapped entry with
`lyra_reflection: "r"` and list-valued `committed_by: ["A","B"]`) yields
exactly one entry whose canonical reflections field is "r" and whose
stewardship committed_by is the comma-joined "A, B". -/
theorem scenario_parses_to_expected_entry :
    parseJournal scenarioDoc = .ok [scenarioExpected] ∧
    scenarioExpected.emergent_companion_reflections = "r" ∧
    scenarioExpected.stewardship_trace.committed_by = "A, B" :=
  ⟨rfl, rfl, rfl⟩

/-! ### Claim C5: the three reflection-field spellings -/

/-- C5.  Of the three historical reflection spellings, parse_journal
preserves the supplied value only for `lyra_reflection` and
`emergent_companion_reflections`; an entry using the `lyra_reflections`
spelling loses the value (the name-replacement step rewrites the key to
"emergent companion_reflections") and receives the default
"No reflections available" instead, contradicting the test suite and the
alias list of src/src/journal/models.py. -/
theorem plural_reflections_spelling_dropped :
    (parseJournal (minimalEntryDocWith "lyra_reflection")).map
      (List.map JournalEntry.emergent_companion_reflections) = .ok ["r"] ∧
    (parseJournal (minimalEntryDocWith "emergent_companion_reflections")).map
      (List.map JournalEntry.emergent_companion_reflections) = .ok ["r"] ∧
    (parseJournal (minimalEntryDocWith "lyra_reflections")).map
      (List.map JournalEntry.emergent_companion_reflections) =
        .ok ["No reflections available"] :=
  ⟨rfl, rfl, rfl⟩

/-! ### Claim C3: reflections absent under every spelling -/

/-- C3, counterexample.  An entry without any reflections spelling (and
without a legacy text field) parses successfully: the parser substitutes
the default "No reflections available" instead of failing with a
validation error. -/
theorem missing_reflections_parses_with_default :
    (parseJournal (.arr [.obj [("journal_entry",
        .obj (entryFieldsWithoutReflections "2025-01-01T00:00:00Z" "journal"
          ["calm"] "d" ["t"] ⟨"A", "C", "x", "y"⟩))]])).map
      (List.map JournalEntry.emergent_companion_reflections) =
      .ok ["No reflections available"] := rfl

/-! ### Claim C10: export of a published entry without legacy text -/

/-- C10.  The journal file `publishedNoTextDoc` is valid (it parses, and
its single entry is published with no legacy text), yet exporting it
raises an uncaught TypeError from `sanitize_text(None)` and writes no
Markdown file for the entry. -/
theorem export_published_entry_without_text_raises :
    (∃ e, parseJournal publishedNoTextDoc = .ok [e] ∧
      e.publish = true ∧ e.text = none) ∧
    exportMarkedEntries publishedNoTextDoc =
      ([], some (.typeError "expected string or bytes-like object")) :=
  ⟨⟨⟨none, none, [], true, none, "2025-01-01T00:00:00Z", "Journal Entry",
     "journal", ["calm"], "d", none, [], "r", ["t"], ⟨"A", "C", "x", "y"⟩⟩,
    rfl, rfl, rfl⟩, rfl⟩

/-! ### Claim C1: the path-safety guard and symlinks -/

/-- C1.  ensure_journal_path accepts a path that reaches the journal file
through a symbolic link inside the approved root (the symlink check runs
on the already-resolved path, where no symlink remains), and likewise
accepts a path containing a `..` segment whenever resolution lands inside
the root; the claim, the docstring of the function and its tests demand
rejection of both. -/
theorem ensure_journal_path_accepts_symlink_and_dotdot :
    ensureJournalPath demoFS 100
      ⟨true, ["app", "data", "gemjournals", "link.json"]⟩ =
        .ok ["app", "data", "gemjournals", "real.json"] ∧
    ensureJournalPath demoFS 100
      ⟨true, ["app", "data", "gemjournals", "sub", "..", "real.json"]⟩ =
        .ok ["app", "data", "gemjournals", "real.json"] :=
  ⟨rfl, rfl⟩

/-! ### Claim C2: envelope dispatch -/

/-- Mapping the per-entry error class into the Python exception taxonomy
never yields a ValueError, so the format error can only come from the
envelope dispatch. -/
theorem mapError_toPy_ne_valueError (r : Except EntryErr (List JournalEntry))
    (m : String) : r.mapError EntryErr.toPy ≠ .error (.valueError m) := by
  cases r with
  | ok v => simp [Except.mapError]
  | error e => cases e <;> simp [Except.mapError, EntryErr.toPy]

theorem unwrapAll_ne_valueError (xs : List Json) (m : String) :
    unwrapAll xs ≠ .error (.valueError m) := by
  induction xs with
  | nil => simp [unwrapAll]
  | cons x rest ih =>
    cases x with
    | obj fields =>
      cases hl : Json.lookupKey fields "journal_entry" with
      | some v =>
        cases hr : unwrapAll rest with
        | ok tail => simp [unwrapAll, hl, hr, exceptBind_ok]
        | error e =>
          simp only [unwrapAll, hl, hr, exceptBind_err]
          intro h
          exact ih (hr.trans h)
      | none => simp [unwrapAll, hl]
    | null => simp [unwrapAll]
    | bool b => simp [unwrapAll]
    | num n => simp [unwrapAll]
    | str s => simp [unwrapAll]
    | arr elems => simp [unwrapAll]

theorem parseJournal_format_error_iff_extract (doc : Json) :
    parseJournal doc = .error (.valueError "Invalid journal file format") ↔
      extractRawEntries doc =
        .error (.valueError "Invalid journal file format") := by
  cases hex : extractRawEntries doc with
  | ok raw =>
    simp only [parseJournal, hex, exceptBind_ok]
    exact ⟨fun h => absurd h (mapError_toPy_ne_valueError _ _),
      fun h => Except.noConfusion h⟩
  | error e => simp [parseJournal, hex, exceptBind_err]

theorem extract_format_error_iff_shape (doc : Json) :
    extractRawEntries doc =
        .error (.valueError "Invalid journal file format") ↔
      acceptedEnvelopeShape doc = false := by
  cases doc with
  | null => simp [extractRawEntries, acceptedEnvelopeShape]
  | bool b => simp [extractRawEntries, acceptedEnvelopeShape]
  | num n => simp [extractRawEntries, acceptedEnvelopeShape]
  | str s => simp [extractRawEntries, acceptedEnvelopeShape]
  | arr elems =>
    simp only [acceptedEnvelopeShape]
    refine ⟨fun h => ?_, fun h => Bool.noConfusion h⟩
    cases elems with
    | nil => exact Except.noConfusion h
    | cons first rest =>
      cases first with
      | obj ffields =>
        by_cases hk : Json.hasKey ffields "journal_entry"
        · rw [extractRawEntries, if_pos hk] at h
          exact absurd h (unwrapAll_ne_valueError _ _)
        · rw [extractRawEntries, if_neg hk] at h
          exact Except.noConfusion h
      | null => exact Except.noConfusion h
      | bool b => exact Except.noConfusion h
      | num n => exact Except.noConfusion h
      | str s => exact Except.noConfusion h
      | arr es2 => exact Except.noConfusion h
  | obj fields =>
    cases he : Json.lookupKey fields "entries" with
    | some v =>
      cases v <;>
        simp [extractRawEntries, acceptedEnvelopeShape, Json.hasKey, he]
    | none =>
      cases hj : Json.lookupKey fields "journal_entry" with
      | some v =>
        simp [extractRawEntries, acceptedEnvelopeShape, Json.hasKey, he, hj]
      | none =>
        simp [extractRawEntries, acceptedEnvelopeShape, Json.hasKey, he, hj]

/-- C2, counterexample.  The legacy `{"entries": [...]}` envelope is none
of the two shapes the claim allows, yet parse_journal accepts it (and a
bare empty list as well) instead of failing with the format error. -/
theorem entries_envelope_accepted :
    ¬ specAcceptedEnvelope (Json.obj [("entries", Json.arr [])]) ∧
    parseJournal (Json.obj [("entries", Json.arr [])]) = .ok [] ∧
    parseJournal (Json.arr []) = .ok [] := by
  refine ⟨?_, rfl, rfl⟩
  simp [specAcceptedEnvelope, Json.hasKey, Json.lookupKey]

/-- C2, amended.  parse_journal fails with
`ValueError("Invalid journal file format")` exactly when the document is
neither a JSON array nor an object carrying an `entries` or
`journal_entry` key: besides the two wrapped shapes of the claim, the
legacy bare-list and `{"entries": ...}` envelopes are accepted by the
dispatch. -/
theorem format_error_iff_unrecognized_envelope (doc : Json) :
    parseJournal doc = .error (.valueError "Invalid journal file format") ↔
      acceptedEnvelopeShape doc = false :=
  (parseJournal_format_error_iff_extract doc).trans
    (extract_format_error_iff_shape doc)

/-! ### Claim C4: round trip through the wrapped envelope -/

/-- C4, counterexample.  Serializing a valid entry whose description is
"Lyra" and parsing the result yields a different entry: the
name-replacement step rewrites the description to "Emergent Companion",
so parse is not a left inverse of serialize on arbitrary strings. -/
theorem roundtrip_fails_on_replaced_names :
    parseJournal (serializeEntries [lyraDescriptionEntry]) =
      .ok [lyraDescriptionRewritten] ∧
    parseJournal (serializeEntries [lyraDescriptionEntry]) ≠
      .ok [lyraDescriptionEntry] := by
  refine ⟨rfl, fun h => ?_⟩
  rw [show parseJournal (serializeEntries [lyraDescriptionEntry]) =
      .ok [lyraDescriptionRewritten] from rfl] at h
  injection h with h1
  injection h1 with h2 h3
  exact absurd (congrArg JournalEntry.description h2) (by decide)

theorem unwrapAll_serialize (es : List JournalEntry) :
    unwrapAll (es.map fun e => .obj [("journal_entry", dumpEntry e)]) =
      .ok (es.map dumpEntry) := by
  induction es with
  | nil => rfl
  | cons e rest ih =>
    simp [unwrapAll, Json.lookupKey, ih, exceptBind_ok]

theorem processAll_map_dump (es : List JournalEntry)
    (h : ∀ e ∈ es, jsonReplaceNames (dumpEntry e) = dumpEntry e) :
    processAll (es.map dumpEntry) = .ok es := by
  induction es with
  | nil => rfl
  | cons e rest ih =>
    simp only [List.map, processAll,
      processEntry_dump e (h e (List.mem_cons_self e rest)), exceptBind_ok,
      ih (fun x hx => h x (List.mem_cons_of_mem e hx))]

/-- C4, amended.  For every list of valid entries whose serialized form
the name-replacement step leaves unchanged (no occurrence of the six
replaced name patterns), parsing the wrapped serialization returns
exactly the original entries. -/
theorem roundtrip_holds_without_replaced_names (es : List JournalEntry)
    (h : ∀ e ∈ es, jsonReplaceNames (dumpEntry e) = dumpEntry e) :
    parseJournal (serializeEntries es) = .ok es := by
  cases es with
  | nil => rfl
  | cons e rest =>
    have hex : extractRawEntries (serializeEntries (e :: rest)) =
        .ok ((e :: rest).map dumpEntry) := by
      have hu := unwrapAll_serialize (e :: rest)
      simpa [serializeEntries, extractRawEntries, Json.hasKey,
        Json.lookupKey] using hu
    simp only [parseJournal, hex, exceptBind_ok, processAll_map_dump _ h,
      Except.mapError]

/-- Witness for the round-trip theorem at a concrete entry. -/
theorem roundtrip_holds_without_replaced_names_witness :
    parseJournal (serializeEntries [plainEntry]) = .ok [plainEntry] :=
  roundtrip_holds_without_replaced_names [plainEntry]
    (fun e he => by
      rw [show e = plainEntry from by simpa using he]
      rfl)

theorem exceptBindRaw_ok {α β ε : Type} (a : α) (f : α → Except ε β) :
    Except.bind (Except.ok a) f = f a := rfl

/-- C3, amended.  When the reflections field is absent under every
accepted spelling (and no legacy text field is present), parsing does
not fail: the parser substitutes the default string
"No reflections available" for the canonical reflections field and the
entry validates (stated for entries the name-replacement step leaves
unchanged). -/
theorem missing_reflections_substitutes_default (ts et desc : String)
    (tone tags : List String) (tr : StewardshipTrace)
    (h : jsonReplaceNames
        (.obj (entryFieldsWithoutReflections ts et tone desc tags tr)) =
      .obj (entryFieldsWithoutReflections ts et tone desc tags tr)) :
    parseJournal (.arr [.obj [("journal_entry",
        .obj (entryFieldsWithoutReflections ts et tone desc tags tr))]]) =
      .ok [⟨none, none, [], false, none, ts, "Journal Entry", et, tone, desc,
            none, [], "No reflections available", tags, tr⟩] := by
  have hfix : replaceNamesFields
      (entryFieldsWithoutReflections ts et tone desc tags tr) =
        entryFieldsWithoutReflections ts et tone desc tags tr :=
    Json.obj.inj h
  have e1 : replaceNamesFields (normalizeRitual (aliasReflection
      (entryFieldsWithoutReflections ts et tone desc tags tr))) =
        entryFieldsWithoutReflections ts et tone desc tags tr := by
    rw [show aliasReflection
          (entryFieldsWithoutReflections ts et tone desc tags tr) =
        entryFieldsWithoutReflections ts et tone desc tags tr from rfl,
      show normalizeRitual
          (entryFieldsWithoutReflections ts et tone desc tags tr) =
        entryFieldsWithoutReflections ts et tone desc tags tr from rfl,
      hfix]
  have e2 : coerceTraceLists (ensureRequiredDefaults (legacyDefaults
      (replaceNamesFields (normalizeRitual (aliasReflection
        (entryFieldsWithoutReflections ts et tone desc tags tr)))))) =
      .ok (entryFieldsWithoutReflections ts et tone desc tags tr ++
        [("emergent_companion_reflections",
          .str "No reflections available")]) := by
    rw [e1,
      show legacyDefaults
          (entryFieldsWithoutReflections ts et tone desc tags tr) =
        entryFieldsWithoutReflections ts et tone desc tags tr from rfl,
      show ensureRequiredDefaults
          (entryFieldsWithoutReflections ts et tone desc tags tr) =
        entryFieldsWithoutReflections ts et tone desc tags tr ++
          [("emergent_companion_reflections",
            .str "No reflections available")] from rfl]
    exact rfl
  have h6 : validateEntry (.obj
      (entryFieldsWithoutReflections ts et tone desc tags tr ++
        [("emergent_companion_reflections",
          .str "No reflections available")])) =
      .ok ⟨none, none, [], false, none, ts, "Journal Entry", et, tone, desc,
            none, [], "No reflections available", tags, tr⟩ := by
    simp only [entryFieldsWithoutReflections, List.cons_append,
      List.nil_append, validateEntry, Json.lookupKey, String.reduceEq,
      reduceIte, requireField, asStr, exceptBind_ok, asStrList_map,
      validateTrace_dump]
  have hproc : processEntry (.obj
      (entryFieldsWithoutReflections ts et tone desc tags tr)) =
      .ok ⟨none, none, [], false, none, ts, "Journal Entry", et, tone, desc,
            none, [], "No reflections available", tags, tr⟩ := by
    simp only [processEntry, e2, exceptBindRaw_ok, h6]
  simp only [parseJournal, extractRawEntries, Json.lookupKey,
    String.reduceEq, reduceIte, Json.hasKey, Option.isSome, unwrapAll,
    exceptBind_ok, processAll, hproc, Except.mapError]

/-- Witness for the missing-reflections theorem at concrete field
values. -/
theorem missing_reflections_substitutes_default_witness :
    parseJournal (.arr [.obj [("journal_entry",
        .obj (entryFieldsWithoutReflections "2025-01-01T00:00:00Z" "journal"
          ["calm"] "dd" ["t"] ⟨"A", "C", "x", "y"⟩))]]) =
      .ok [⟨none, none, [], false, none, "2025-01-01T00:00:00Z",
            "Journal Entry", "journal", ["calm"], "dd", none, [],
            "No reflections available", ["t"], ⟨"A", "C", "x", "y"⟩⟩] :=
  missing_reflections_substitutes_default "2025-01-01T00:00:00Z" "journal"
    "dd" ["calm"] ["t"] ⟨"A", "C", "x", "y"⟩ rfl

/-! ### Claims C7 and C8: the publish toggle -/

theorem lookupKey_setKey_self (fields : List (String × Json)) (key : String)
    (v : Json) : Json.lookupKey (Json.setKey fields key v) key = some v := by
  induction fields with
  | nil => simp [Json.setKey, Json.lookupKey]
  | cons kv rest ih =>
    by_cases hk : kv.1 = key
    · simp [Json.setKey, Json.lookupKey, hk]
    · simp [Json.setKey, Json.lookupKey, hk, ih]

theorem lookupKey_setKey_ne (fields : List (String × Json))
    (key key2 : String) (v : Json) (h : key ≠ key2) :
    Json.lookupKey (Json.setKey fields key v) key2 =
      Json.lookupKey fields key2 := by
  induction fields with
  | nil => simp [Json.setKey, Json.lookupKey, h]
  | cons kv rest ih =>
    by_cases hk : kv.1 = key
    · simp [Json.setKey, Json.lookupKey, hk, h, ih]
    · simp [Json.setKey, Json.lookupKey, hk, h, ih]

/-- When no item of the entry list matches the requested id (and every
item is traversable), the search loop reports no update and returns the
list unchanged. -/
theorem toggleInEntries_no_match (entryId : String) (xs : List Json)
    (hwf : ∀ item ∈ xs, wellFormedItem item = true)
    (hnone : ∀ item ∈ xs, entryMatches entryId item = false) :
    toggleInEntries entryId xs = .ok (false, xs) := by
  induction xs with
  | nil => rfl
  | cons item rest ih =>
    have hwfi := hwf item (List.mem_cons_self item rest)
    have hni := hnone item (List.mem_cons_self item rest)
    have ihr := ih (fun x hx => hwf x (List.mem_cons_of_mem item hx))
      (fun x hx => hnone x (List.mem_cons_of_mem item hx))
    cases item with
    | obj fields =>
      cases hl : Json.lookupKey fields "journal_entry" with
      | some v =>
        cases v with
        | obj inner =>
          have hne : pyStr (Json.getD inner "id" .null) ≠ entryId := by
            simpa [entryMatches, unwrapItemFields, hl] using hni
          simp [toggleInEntries, hl, hne, ihr]
        | null => simp [wellFormedItem, hl] at hwfi
        | bool b => simp [wellFormedItem, hl] at hwfi
        | num n => simp [wellFormedItem, hl] at hwfi
        | str s => simp [wellFormedItem, hl] at hwfi
        | arr es => simp [wellFormedItem, hl] at hwfi
      | none =>
        have hne : pyStr (Json.getD fields "id" .null) ≠ entryId := by
          simpa [entryMatches, unwrapItemFields, hl] using hni
        simp [toggleInEntries, hl, hne, ihr]
    | null => simp [wellFormedItem] at hwfi
    | bool b => simp [wellFormedItem] at hwfi
    | num n => simp [wellFormedItem] at hwfi
    | str s => simp [wellFormedItem] at hwfi
    | arr es => simp [wellFormedItem] at hwfi

/-- C8.  For every journal document and an id that matches no entry in
it, toggle_publish_flag reports the not-found outcome and the file is
left byte-identical (the function writes only on an update, and the
in-memory document is returned unchanged). -/
theorem toggle_not_found_leaves_file_unchanged (doc : Json)
    (xs : List Json) (entryId : String)
    (hdoc : docEntryList doc = some xs)
    (hwf : ∀ item ∈ xs, wellFormedItem item = true)
    (hnone : ∀ item ∈ xs, entryMatches entryId item = false) :
    togglePublishFlag doc entryId = .ok (false, doc) := by
  have hloop := toggleInEntries_no_match entryId xs hwf hnone
  cases doc with
  | arr entries =>
    have hx : entries = xs := by simpa [docEntryList] using hdoc
    subst hx
    simp [togglePublishFlag, hloop]
  | obj fields =>
    cases hl : Json.lookupKey fields "entries" with
    | some v =>
      cases v with
      | arr entries =>
        have hx : entries = xs := by simpa [docEntryList, hl] using hdoc
        subst hx
        simp [togglePublishFlag, hl, hloop]
      | null => simp [docEntryList, hl] at hdoc
      | bool b => simp [docEntryList, hl] at hdoc
      | num n => simp [docEntryList, hl] at hdoc
      | str s => simp [docEntryList, hl] at hdoc
      | obj f2 => simp [docEntryList, hl] at hdoc
    | none => simp [togglePublishFlag, hl]
  | null => simp [docEntryList] at hdoc
  | bool b => simp [docEntryList] at hdoc
  | num n => simp [docEntryList] at hdoc
  | str s => simp [docEntryList] at hdoc

/-- Witness for the not-found theorem: a one-entry journal file and an id
present nowhere in it. -/
theorem toggle_not_found_leaves_file_unchanged_witness :
    togglePublishFlag (.arr [.obj [("journal_entry",
        .obj [("id", .str "1"), ("publish", .bool false)])]])
      "nonexistent-id" =
      .ok (false, .arr [.obj [("journal_entry",
        .obj [("id", .str "1"), ("publish", .bool false)])]]) :=
  toggle_not_found_leaves_file_unchanged _ _ "nonexistent-id" rfl
    (by intro item hx; simp at hx; subst hx; rfl)
    (by intro item hx; simp at hx; subst hx; decide)

theorem togglePub_twice_state (fields : List (String × Json)) :
    pyTruthy (Json.getD (togglePub (togglePub fields)) "publish"
        (.bool false)) =
      pyTruthy (Json.getD fields "publish" (.bool false)) := by
  simp [togglePub, Json.getD, lookupKey_setKey_self, pyTruthy, Bool.not_not]

theorem togglePub_id (fields : List (String × Json)) :
    Json.getD (togglePub fields) "id" Json.null =
      Json.getD fields "id" Json.null := by
  simp [togglePub, Json.getD,
    lookupKey_setKey_ne fields "publish" "id" _ (by decide)]

theorem togglePub_journal_entry (fields : List (String × Json)) :
    Json.lookupKey (togglePub fields) "journal_entry" =
      Json.lookupKey fields "journal_entry" :=
  lookupKey_setKey_ne fields "publish" "journal_entry" _ (by decide)

/-- Two successive runs of the search loop with the same id restore the
effective publish state of every entry and agree on the found flag. -/
theorem toggleInEntries_twice (entryId : String) (xs : List Json) :
    ∀ (ys zs : List Json) (u1 u2 : Bool),
      toggleInEntries entryId xs = .ok (u1, ys) →
      toggleInEntries entryId ys = .ok (u2, zs) →
      zs.map entryPublishState = xs.map entryPublishState ∧ u2 = u1 := by
  induction xs with
  | nil =>
    intro ys zs u1 u2 h1 h2
    simp only [toggleInEntries, Except.ok.injEq, Prod.mk.injEq] at h1
    obtain ⟨hu1, hys⟩ := h1
    subst hys
    simp only [toggleInEntries, Except.ok.injEq, Prod.mk.injEq] at h2
    obtain ⟨hu2, hzs⟩ := h2
    subst hzs
    exact ⟨rfl, hu2.symm.trans hu1⟩
  | cons item rest ih =>
    intro ys zs u1 u2 h1 h2
    cases item with
    | obj fields =>
      cases hl : Json.lookupKey fields "journal_entry" with
      | some v =>
        cases v with
        | obj inner =>
          by_cases hm : pyStr (Json.getD inner "id" .null) = entryId
          · simp only [toggleInEntries, hl, hm, if_true, eq_self_iff_true,
              Except.ok.injEq, Prod.mk.injEq] at h1
            obtain ⟨hu1, hys⟩ := h1
            subst hys
            simp only [toggleInEntries, lookupKey_setKey_self, togglePub_id,
              hm, if_true, eq_self_iff_true, Except.ok.injEq,
              Prod.mk.injEq] at h2
            obtain ⟨hu2, hzs⟩ := h2
            subst hzs
            refine ⟨?_, hu2.symm.trans hu1⟩
            simp only [List.map, List.cons.injEq, and_iff_left rfl]
            simp [entryPublishState, unwrapItemFields,
              lookupKey_setKey_self, hl, togglePub_twice_state]
          · simp only [toggleInEntries, hl, hm, if_false] at h1
            cases hr1 : toggleInEntries entryId rest with
            | ok p1 =>
              obtain ⟨u, restOut⟩ := p1
              simp only [hr1, Except.ok.injEq, Prod.mk.injEq] at h1
              obtain ⟨hu1, hys⟩ := h1
              subst hys
              simp only [toggleInEntries, hl, hm, if_false] at h2
              cases hr2 : toggleInEntries entryId restOut with
              | ok p2 =>
                obtain ⟨ux, restOut2⟩ := p2
                simp only [hr2, Except.ok.injEq, Prod.mk.injEq] at h2
                obtain ⟨hu2, hzs⟩ := h2
                subst hzs
                obtain ⟨hmap, hu⟩ := ih restOut restOut2 u ux hr1 hr2
                exact ⟨by simp [List.map, hmap],
                  hu2.symm.trans (hu.symm.symm.trans hu1)⟩
              | error e =>
                simp only [hr2] at h2
                exact Except.noConfusion h2
            | error e =>
              simp only [hr1] at h1
              exact Except.noConfusion h1
        | null => simp [toggleInEntries, hl] at h1
        | bool b => simp [toggleInEntries, hl] at h1
        | num n => simp [toggleInEntries, hl] at h1
        | str s => simp [toggleInEntries, hl] at h1
        | arr es => simp [toggleInEntries, hl] at h1
      | none =>
        by_cases hm : pyStr (Json.getD fields "id" .null) = entryId
        · simp only [toggleInEntries, hl, hm, if_true, eq_self_iff_true,
            Except.ok.injEq, Prod.mk.injEq] at h1
          obtain ⟨hu1, hys⟩ := h1
          subst hys
          simp only [toggleInEntries, togglePub_journal_entry, hl,
            togglePub_id, hm, if_true, eq_self_iff_true, Except.ok.injEq,
            Prod.mk.injEq] at h2
          obtain ⟨hu2, hzs⟩ := h2
          subst hzs
          refine ⟨?_, hu2.symm.trans hu1⟩
          simp only [List.map, List.cons.injEq, and_iff_left rfl]
          simp [entryPublishState, unwrapItemFields,
            togglePub_journal_entry, hl, togglePub_twice_state]
        · simp only [toggleInEntries, hl, hm, if_false] at h1
          cases hr1 : toggleInEntries entryId rest with
          | ok p1 =>
            obtain ⟨u, restOut⟩ := p1
            simp only [hr1, Except.ok.injEq, Prod.mk.injEq] at h1
            obtain ⟨hu1, hys⟩ := h1
            subst hys
            simp only [toggleInEntries, hl, hm, if_false] at h2
            cases hr2 : toggleInEntries entryId restOut with
            | ok p2 =>
              obtain ⟨ux, restOut2⟩ := p2
              simp only [hr2, Except.ok.injEq, Prod.mk.injEq] at h2
              obtain ⟨hu2, hzs⟩ := h2
              subst hzs
              obtain ⟨hmap, hu⟩ := ih restOut restOut2 u ux hr1 hr2
              exact ⟨by simp [List.map, hmap],
                hu2.symm.trans (hu.symm.symm.trans hu1)⟩
            | error e =>
              simp only [hr2] at h2
              exact Except.noConfusion h2
          | error e =>
            simp only [hr1] at h1
            exact Except.noConfusion h1
    | null => simp [toggleInEntries] at h1
    | bool b => simp [toggleInEntries] at h1
    | num n => simp [toggleInEntries] at h1
    | str s => simp [toggleInEntries] at h1
    | arr es => simp [toggleInEntries] at h1

/-- C7.  Toggling the publish flag twice in succession with the same id
restores the effective publish state of every entry of the document (in
particular of the toggled entry) and reports the same found outcome, for
any journal document on which both calls succeed. -/
theorem toggle_publish_twice_restores_state (doc d1 d2 : Json)
    (entryId : String) (u1 u2 : Bool)
    (hpresent : ∃ xs, docEntryList doc = some xs ∧
      ∃ item ∈ xs, entryMatches entryId item = true)
    (h1 : togglePublishFlag doc entryId = .ok (u1, d1))
    (h2 : togglePublishFlag d1 entryId = .ok (u2, d2)) :
    docPublishStates d2 = docPublishStates doc ∧ u2 = u1 := by
  -- the presence hypothesis mirrors the wording of the claim; the
  -- involution holds for the not-found outcome as well
  have hp := hpresent
  clear hp hpresent
  cases doc with
  | arr entries =>
    cases ht1 : toggleInEntries entryId entries with
    | ok p1 =>
      obtain ⟨u, out⟩ := p1
      cases u with
      | true =>
        simp only [togglePublishFlag, ht1, reduceIte, Except.ok.injEq,
          Prod.mk.injEq] at h1
        obtain ⟨hu1, hd1⟩ := h1
        subst hd1
        cases ht2 : toggleInEntries entryId out with
        | ok p2 =>
          obtain ⟨ux, out2⟩ := p2
          obtain ⟨hmap, hux⟩ := toggleInEntries_twice entryId entries out
            out2 true ux ht1 ht2
          subst hux
          simp only [togglePublishFlag, ht2, reduceIte, Except.ok.injEq,
            Prod.mk.injEq] at h2
          obtain ⟨hu2, hd2⟩ := h2
          subst hd2
          refine ⟨?_, hu2.symm.trans hu1⟩
          simpa [docPublishStates, docEntryList] using hmap
        | error e =>
          simp only [togglePublishFlag, ht2] at h2
          exact Except.noConfusion h2
      | false =>
        simp only [togglePublishFlag, ht1, reduceIte, Bool.false_eq_true,
          if_false, Except.ok.injEq, Prod.mk.injEq] at h1
        obtain ⟨hu1, hd1⟩ := h1
        subst hd1
        simp only [togglePublishFlag, ht1, reduceIte, Bool.false_eq_true,
          if_false, Except.ok.injEq, Prod.mk.injEq] at h2
        obtain ⟨hu2, hd2⟩ := h2
        subst hd2
        exact ⟨rfl, hu2.symm.trans hu1⟩
    | error e =>
      simp only [togglePublishFlag, ht1] at h1
      exact Except.noConfusion h1
  | obj fields =>
    cases hl : Json.lookupKey fields "entries" with
    | some v =>
      cases v with
      | arr entries =>
        cases ht1 : toggleInEntries entryId entries with
        | ok p1 =>
          obtain ⟨u, out⟩ := p1
          cases u with
          | true =>
            simp only [togglePublishFlag, hl, ht1, reduceIte,
              Except.ok.injEq, Prod.mk.injEq] at h1
            obtain ⟨hu1, hd1⟩ := h1
            subst hd1
            cases ht2 : toggleInEntries entryId out with
            | ok p2 =>
              obtain ⟨ux, out2⟩ := p2
              obtain ⟨hmap, hux⟩ := toggleInEntries_twice entryId entries
                out out2 true ux ht1 ht2
              subst hux
              simp only [togglePublishFlag, lookupKey_setKey_self, ht2,
                reduceIte, Except.ok.injEq, Prod.mk.injEq] at h2
              obtain ⟨hu2, hd2⟩ := h2
              subst hd2
              refine ⟨?_, hu2.symm.trans hu1⟩
              simpa [docPublishStates, docEntryList, lookupKey_setKey_self,
                hl] using hmap
            | error e =>
              simp only [togglePublishFlag, lookupKey_setKey_self, ht2] at h2
              exact Except.noConfusion h2
          | false =>
            simp only [togglePublishFlag, hl, ht1, reduceIte,
              Bool.false_eq_true, if_false, Except.ok.injEq,
              Prod.mk.injEq] at h1
            obtain ⟨hu1, hd1⟩ := h1
            subst hd1
            simp only [togglePublishFlag, hl, ht1, reduceIte,
              Bool.false_eq_true, if_false, Except.ok.injEq,
              Prod.mk.injEq] at h2
            obtain ⟨hu2, hd2⟩ := h2
            subst hd2
            exact ⟨rfl, hu2.symm.trans hu1⟩
        | error e =>
          simp only [togglePublishFlag, hl, ht1] at h1
          exact Except.noConfusion h1
      | null =>
        simp only [togglePublishFlag, hl] at h1
        exact Except.noConfusion h1
      | bool b =>
        simp only [togglePublishFlag, hl] at h1
        exact Except.noConfusion h1
      | num n =>
        simp only [togglePublishFlag, hl] at h1
        exact Except.noConfusion h1
      | str s =>
        simp only [togglePublishFlag, hl] at h1
        exact Except.noConfusion h1
      | obj f2 =>
        simp only [togglePublishFlag, hl] at h1
        exact Except.noConfusion h1
    | none =>
      simp only [togglePublishFlag, hl, Except.ok.injEq,
        Prod.mk.injEq] at h1
      obtain ⟨hu1, hd1⟩ := h1
      subst hd1
      simp only [togglePublishFlag, hl, Except.ok.injEq,
        Prod.mk.injEq] at h2
      obtain ⟨hu2, hd2⟩ := h2
      subst hd2
      exact ⟨rfl, hu2.symm.trans hu1⟩
  | null =>
    simp only [togglePublishFlag] at h1
    exact Except.noConfusion h1
  | bool b =>
    simp only [togglePublishFlag] at h1
    exact Except.noConfusion h1
  | num n =>
    simp only [togglePublishFlag] at h1
    exact Except.noConfusion h1
  | str s =>
    simp only [togglePublishFlag] at h1
    exact Except.noConfusion h1

/-- Witness for the toggle involution at a concrete one-entry file. -/
theorem toggle_publish_twice_restores_state_witness :
    docPublishStates (Json.arr [.obj [("journal_entry",
        .obj [("id", .str "1"), ("publish", .bool false)])]]) =
      docPublishStates (Json.arr [.obj [("journal_entry",
        .obj [("id", .str "1"), ("publish", .bool false)])]]) ∧
    (true : Bool) = true :=
  toggle_publish_twice_restores_state
    (Json.arr [.obj [("journal_entry",
      .obj [("id", .str "1"), ("publish", .bool false)])]])
    (Json.arr [.obj [("journal_entry",
      .obj [("id", .str "1"), ("publish", .bool true)])]])
    (Json.arr [.obj [("journal_entry",
      .obj [("id", .str "1"), ("publish", .bool false)])]])
    "1" true true
    ⟨[.obj [("journal_entry", .obj [("id", .str "1"),
        ("publish", .bool false)])]], rfl,
      .obj [("journal_entry", .obj [("id", .str "1"),
        ("publish", .bool false)])],
      List.mem_singleton.mpr rfl, rfl⟩
    rfl rfl

/-! ### Claim C9: encrypted storage round trip -/

theorem validateAll_map_dump (es : List JournalEntry) :
    validateAll (es.map dumpEntry) = .ok es := by
  induction es with
  | nil => rfl
  | cons e rest ih =>
    simp only [List.map, validateAll, validateEntry_dump, exceptBind_ok, ih]

/-- C9.  For any torch/Fernet stack with the documented library
guarantees, any key pair and any entry list: loading with the saving key
returns the entries unchanged, and loading with any other key fails with
the Fernet authentication error before producing any entry. -/
theorem encrypted_roundtrip_and_wrong_key_fails
    {Key Bytes Blob : Type} (st : TorchFernetStack Key Bytes Blob)
    (k k2 : Key) (entries : List JournalEntry) (hk : k2 ≠ k) :
    loadJournalEntries st k (saveJournalEntries st k entries) =
      .ok entries ∧
    loadJournalEntries st k2 (saveJournalEntries st k entries) =
      .error .invalidToken := by
  constructor
  · simp only [loadJournalEntries, saveJournalEntries, st.decrypt_encrypt,
      st.unpickle_pickle, validateAll_map_dump, Except.mapError]
  · simp only [loadJournalEntries, saveJournalEntries,
      st.decrypt_wrong_key k k2 _ hk]

/-- Witness for the storage theorem: the toy stack, keys 0 and 1, one
concrete entry. -/
theorem encrypted_roundtrip_and_wrong_key_fails_witness :
    (loadJournalEntries demoStack 0 (saveJournalEntries demoStack 0
        [plainEntry]) = .ok [plainEntry] ∧
     loadJournalEntries demoStack 1 (saveJournalEntries demoStack 0
        [plainEntry]) = .error .invalidToken) :=
  encrypted_roundtrip_and_wrong_key_fails demoStack 0 1 [plainEntry]
    (by decide)
